import Mathlib

/-!
Verification of the chatluna search-service browsing tool and of the
cooperative async ticket lock (`ObjectLock`), against the repository's
design document.

The development shallowly embeds the two components the claims are about:

* `ObjectLock` (the async mutual-exclusion primitive): its fields mirror
  `_lock`, `_queue` and `_currentId`.  `ObjectLock.unlock` is the direct
  translation of the synchronous `unlock` method (a JavaScript throw is an
  `Except.error`).  The async `lock()` method suspends, so it is embedded
  as steps of a small interleaving semantics (`lockStep` over `LockWorld`):
  JavaScript is single threaded and the code between two `await`s runs
  atomically, hence `lock()` contributes two kinds of atomic steps — the
  synchronous entry (`LockEvent.lockCall`: allocate the id, push it, and
  either acquire at once when `_lock` is false or start polling) and one
  poll iteration (`LockEvent.poll`: re-check `queue[0] !== id || _lock`,
  acquiring when the check passes).  `holders` and `waiting` are ghost
  fields recording which issued tickets have been returned by `lock()` and
  not yet released, resp. which are still inside the polling loop.

* `PuppeteerBrowserTool`: the dispatcher `_call` and every verb handler are
  translated with their failure behaviour made explicit.  The external
  capabilities (puppeteer page, embeddings, language model) are an
  abstract environment `Env`; each effectful primitive yields
  `Except JsErr _` where `JsErr.errObj m` is a thrown `Error` with message
  `m` and `JsErr.nonError` any other thrown value.  The mutable session
  state is `ToolState` (just the `page` handle: `true` = non-null).  The
  idle-timer bookkeeping (`lastActionTime`) is elided: no claim mentions
  it.  String primitives (`trim`, `toLowerCase`, `indexOf(' ')`,
  `includes`) are modelled over `List Char`; `Char.isWhitespace` stands
  for the JavaScript whitespace class and `Char.toLower` for
  `toLowerCase` (the verbs are ASCII, where the two agree).
-/

/-! ## The ticket lock (`ObjectLock`) -/

/-- `ObjectLock`'s mutable fields: `_lock`, `_queue`, `_currentId`. -/
structure ObjectLock where
  lock : Bool
  queue : List Nat
  currentId : Nat
deriving Repr, DecidableEq

/-- JavaScript `Array.prototype.indexOf`: the first index holding `a`,
or `-1` when `a` is absent. -/
def jsIndexOf : List Nat → Nat → Int
  | [], _ => -1
  | x :: rest, a =>
    if x = a then 0
    else if jsIndexOf rest a = -1 then -1 else jsIndexOf rest a + 1

/-- The `unlock(id)` method, translated line by line: throw when `_lock`
is false; throw when `id` is not in `_queue`; otherwise clear `_lock` and
`splice` the entry out.  Both throws happen before any mutation. -/
def ObjectLock.unlock (s : ObjectLock) (tid : Nat) : Except String ObjectLock :=
  if s.lock = false then Except.error "unlock without lock"
  else if jsIndexOf s.queue tid = -1 then Except.error "unlock without lock"
  else Except.ok
    { lock := false
      queue := s.queue.eraseIdx (jsIndexOf s.queue tid).toNat
      currentId := s.currentId }

/-- The `lock()` method in the case where `_lock` is false at entry (the
fast path): allocate the next id, push it, skip the wait loop, set `_lock`
and return the id.  (The code does not consult the queue on this path.) -/
def ObjectLock.lockNow (s : ObjectLock) : ObjectLock × Nat :=
  (⟨true, s.queue ++ [s.currentId], s.currentId + 1⟩, s.currentId)

/-- `runLocked(fn)` for a single caller that acquires immediately:
`await lock()`, `await fn()`, `await unlock(id)`.  `fn`'s outcome is a
parameter; an `Except.error` is a thrown exception, which propagates out
before `unlock` is reached — the source has no try/finally. -/
def ObjectLock.runLocked {α : Type} (s : ObjectLock) (fn : Except String α) :
    ObjectLock × Except String α :=
  match fn with
  | Except.error e => ((s.lockNow).1, Except.error e)
  | Except.ok v =>
    match (s.lockNow).1.unlock (s.lockNow).2 with
    | Except.error e => ((s.lockNow).1, Except.error e)
    | Except.ok s2 => (s2, Except.ok v)

/-- The lock state together with ghost bookkeeping: `holders` lists the
ticket ids whose `lock()` call has returned and whose `unlock` has not yet
succeeded; `waiting` lists the ids still inside the polling loop. -/
structure LockWorld where
  st : ObjectLock
  holders : List Nat
  waiting : List Nat
deriving Repr, DecidableEq

/-- The atomic steps of the lock's clients (JavaScript runs the code
between two `await`s atomically). -/
inductive LockEvent where
  | lockCall : LockEvent
  | poll (tid : Nat) : LockEvent
  | unlockCall (tid : Nat) : LockEvent
deriving Repr, DecidableEq

/-- One atomic step.  `lockCall`: `const id = this._currentId++;
this._queue.push(id); if (this._lock) { …wait… } this._lock = true` — when
`_lock` is false the caller acquires at once (no queue check), otherwise it
joins the waiters.  `poll tid`: one iteration of
`while (this._queue[0] !== id || this._lock) await sleep(10)` — the waiter
acquires exactly when it heads the queue and `_lock` is false, else the
state is unchanged.  `unlockCall tid`: the `unlock` method; a throw leaves
every field unchanged. -/
def lockStep (w : LockWorld) : LockEvent → LockWorld
  | LockEvent.lockCall =>
    if w.st.lock then
      ⟨⟨w.st.lock, w.st.queue ++ [w.st.currentId], w.st.currentId + 1⟩,
        w.holders, w.waiting ++ [w.st.currentId]⟩
    else
      ⟨⟨true, w.st.queue ++ [w.st.currentId], w.st.currentId + 1⟩,
        w.holders ++ [w.st.currentId], w.waiting⟩
  | LockEvent.poll tid =>
    if tid ∈ w.waiting ∧ w.st.queue.head? = some tid ∧ w.st.lock = false then
      ⟨⟨true, w.st.queue, w.st.currentId⟩, w.holders ++ [tid], w.waiting.erase tid⟩
    else w
  | LockEvent.unlockCall tid =>
    match w.st.unlock tid with
    | Except.error _ => w
    | Except.ok s' => ⟨s', w.holders.erase tid, w.waiting⟩

/-- A freshly constructed lock. -/
def initWorld : LockWorld := ⟨⟨false, [], 0⟩, [], []⟩

/-- Run a sequence of atomic steps from the initial state. -/
def runEvents (evs : List LockEvent) : LockWorld := evs.foldl lockStep initWorld

/-- How many `lock()` calls a trace contains. -/
def numLocks : List LockEvent → Nat
  | [] => 0
  | LockEvent.lockCall :: r => numLocks r + 1
  | _ :: r => numLocks r

/-- `idsFrom start n = [start, start+1, …, start+n-1]`. -/
def idsFrom : Nat → Nat → List Nat
  | _, 0 => []
  | start, n + 1 => start :: idsFrom (start + 1) n

/-- The ticket ids handed out by the successive `lock()` calls of a trace,
in call order (each `lockCall` returns the pre-state's `_currentId`). -/
def ticketsFrom : LockWorld → List LockEvent → List Nat
  | _, [] => []
  | w, e :: r =>
    (match e with
     | LockEvent.lockCall => [w.st.currentId]
     | _ => []) ++ ticketsFrom (lockStep w e) r

/-- The interleaving refuting FIFO under proper use: A `lock()`s (ticket
0, acquires), B `lock()`s (ticket 1, polls), A `unlock(0)`s, and C
`lock()`s before B's next poll — C's fast path sees `_lock === false` and
acquires ticket 2 past the queue head 1. -/
def c1trace1 : List LockEvent :=
  [LockEvent.lockCall, LockEvent.lockCall, LockEvent.unlockCall 0, LockEvent.lockCall]

/-- The interleaving giving two simultaneous holders: A holds ticket 0, B
polls with ticket 1, a stale caller `unlock(1)`s (accepted: 1 is queued),
clearing `_lock` while A still holds; C then acquires ticket 2 at once. -/
def c1trace2 : List LockEvent :=
  [LockEvent.lockCall, LockEvent.lockCall, LockEvent.unlockCall 1, LockEvent.lockCall]

/-! ## String primitives for the browser tool -/

/-- JavaScript `trim()` over the character list: drop whitespace from both
ends. -/
def jsTrimL (l : List Char) : List Char :=
  ((l.dropWhile Char.isWhitespace).reverse.dropWhile Char.isWhitespace).reverse

/-- `trim()` on strings. -/
def jsTrimS (s : String) : String := String.mk (jsTrimL s.data)

/-- `toLowerCase()` (ASCII, which covers every verb). -/
def jsToLower (s : String) : String := String.mk (s.data.map Char.toLower)

/-- `indexOf(' ')` combined with the two `slice`s of `_call`: `none` when
the input has no space, otherwise the part before the first space and the
part after it. -/
def splitAtFirstSpace : List Char → Option (List Char × List Char)
  | [] => none
  | c :: rest =>
    if c = ' ' then some ([], rest)
    else
      match splitAtFirstSpace rest with
      | some p => some (c :: p.1, p.2)
      | none => none

/-- `splitAtFirstSpace` on strings. -/
def splitFirstSpace (s : String) : Option (String × String) :=
  match splitAtFirstSpace s.data with
  | some p => some (String.mk p.1, String.mk p.2)
  | none => none

/-- `isPrefixOfL pat l` decides whether `pat` begins `l`. -/
def isPrefixOfL : List Char → List Char → Bool
  | [], _ => true
  | _ :: _, [] => false
  | p :: ps, c :: cs => p == c && isPrefixOfL ps cs

/-- JavaScript `String.prototype.includes` over character lists. -/
def containsSubL : List Char → List Char → Bool
  | pat, [] => pat.isEmpty
  | pat, c :: rest => isPrefixOfL pat (c :: rest) || containsSubL pat rest

/-- `includes` on strings. -/
def containsSub (pat s : String) : Bool := containsSubL pat.data s.data

/-! ## The post-processing of the DOM text extraction (`getPageText`)

The in-page walk builds `structuredText` and line 288 returns
`structuredText.trim().replace(/\n{3,}/g, '\n\n')`.  The walk itself is
quantified over: every DOM input yields some `structuredText`, and the
claims about the post-processed result hold for all of them. -/

/-- The regex replace `\n{3,} → "\n\n"` (global, greedy): every maximal
run of `k` newlines becomes `min k 2` newlines — runs of length 1 or 2 are
untouched, longer runs collapse to exactly two.  `pending` counts the
newlines of the run currently being read. -/
def collapseAux : List Char → Nat → List Char
  | [], pending => List.replicate (min pending 2) '\n'
  | c :: rest, pending =>
    if c = '\n' then collapseAux rest (pending + 1)
    else List.replicate (min pending 2) '\n' ++ c :: collapseAux rest 0

/-- `replace(/\n{3,}/g, '\n\n')`. -/
def collapseNewlines (l : List Char) : List Char := collapseAux l 0

/-- Line 288: `structuredText.trim().replace(/\n{3,}/g, '\n\n')`. -/
def postProcess (l : List Char) : List Char := collapseNewlines (jsTrimL l)

/-- `noTriple l` decides that `l` has no three consecutive newlines. -/
def noTriple : List Char → Bool
  | a :: b :: c :: rest =>
    !(a == '\n' && b == '\n' && c == '\n') && noTriple (b :: c :: rest)
  | _ => true

/-! ## The browser tool -/

/-- A thrown JavaScript value: an `Error` object carrying a message, or
any other value (whose `.message` is `undefined` and whose string
conversion is `display`). -/
inductive JsErr where
  | errObj (msg : String) : JsErr
  | nonError (display : String) : JsErr
deriving Repr, DecidableEq

/-- What `${error.message}` interpolates. -/
def JsErr.message : JsErr → String
  | JsErr.errObj m => m
  | JsErr.nonError _ => "undefined"

/-- What `${error}` interpolates. -/
def JsErr.displayString : JsErr → String
  | JsErr.errObj m => "Error: " ++ m
  | JsErr.nonError d => d

/-- The outcome of `document.querySelector(sel)` + `.textContent` inside
`selectDiv`'s evaluate: no matching element, or the element's
`textContent` (possibly null). -/
inductive SelectOutcome where
  | notFound : SelectOutcome
  | found (text : Option String) : SelectOutcome
deriving Repr, DecidableEq

/-- The external capabilities the tool calls into, with each primitive's
possible failure explicit.  `puppeteer` is whether `ctx.puppeteer` is
available; the remaining fields are the observable outcomes of the page /
embeddings / model operations. -/
structure Env where
  puppeteer : Bool
  newPage : Except JsErr Unit
  goto : String → Except JsErr Unit
  goBack : Except JsErr Unit
  content : Except JsErr String
  evalPageText : Except JsErr String
  semanticSearch : String → String → Except JsErr String
  modelInvoke : String → Except JsErr String
  selectEval : String → Except JsErr SelectOutcome
  structuredUrls : Except JsErr String

/-- The tool's mutable session state: whether `this.page` is non-null. -/
structure ToolState where
  page : Bool
deriving Repr, DecidableEq

/-- `initBrowser`: reuse the existing page, else throw when the puppeteer
service is absent, else ask the browser for a new page.  (The catch block
only re-throws after logging.) -/
def initBrowser (env : Env) (st : ToolState) : Except JsErr ToolState :=
  if st.page then Except.ok st
  else if env.puppeteer = false then
    Except.error (JsErr.errObj "Puppeteer service is not available")
  else
    match env.newPage with
    | Except.error e => Except.error e
    | Except.ok _ => Except.ok ⟨true⟩

/-- The `open` handler: `initBrowser()` then `page.goto(url, …)`, with the
whole body caught and turned into `Error opening page: ${error.message}`.
Note the page created by `initBrowser` survives a failing `goto`. -/
def openPage (env : Env) (st : ToolState) (url : String) : ToolState × String :=
  match initBrowser env st with
  | Except.error e => (st, "Error opening page: " ++ e.message)
  | Except.ok st1 =>
    match env.goto url with
    | Except.error e => (st1, "Error opening page: " ++ e.message)
    | Except.ok _ => (st1, "Page opened successfully")

/-- The advisory `getPageText` returns when no page is open. -/
def noPageTextMsg : String := "No page is open, please use open action first"

/-- The `text` handler: advisory when no page is open; otherwise evaluate
the DOM walk; when a (non-empty) search text is given, chunk + embed +
similarity-filter the result.  Every failure becomes
`Error getting page text: ${error.message}`. -/
def getPageText (env : Env) (st : ToolState) (searchText : String) :
    ToolState × String :=
  if st.page = false then (st, noPageTextMsg)
  else
    match env.evalPageText with
    | Except.error e => (st, "Error getting page text: " ++ e.message)
    | Except.ok text =>
      if searchText ≠ "" then
        match env.semanticSearch text searchText with
        | Except.error e => (st, "Error getting page text: " ++ e.message)
        | Except.ok filtered => (st, filtered)
      else (st, text)

/-- The fixed summarization prompt (`summarizeText`); the long guideline
tail is abbreviated — no claim depends on the prompt's wording. -/
def summaryPrompt (text searchText : String) : String :=
  "Text: " ++ text ++
    "\n\nPlease provide a comprehensive and objective summary of the above text" ++
    (if searchText ≠ "" then ", with a focus on \"" ++ searchText ++ "\"" else "") ++
    ". Your summary should be well-structured and thorough [guidelines elided]"

/-- `summarizeText`: invoke the model on the prompt; a failure becomes
`Error summarizing text: ${error.message}`. -/
def summarizeText (env : Env) (text searchText : String) : String :=
  match env.modelInvoke (summaryPrompt text searchText) with
  | Except.error e => "Error summarizing text: " ++ e.message
  | Except.ok out => out

/-- The `summarize` handler: `getPageText(searchText)` then
`summarizeText` on whatever string that produced — it performs no page
check of its own. -/
def summarizePage (env : Env) (st : ToolState) (searchText : String) :
    ToolState × String :=
  ((getPageText env st searchText).1,
    summarizeText env (getPageText env st searchText).2 searchText)

/-- The `select` handler: advisory when no page is open; the evaluate
returns the element's text or `Element not found`; a falsy result becomes
`No content found`; failures become `Error selecting div: …`. -/
def selectDiv (env : Env) (st : ToolState) (selector : String) :
    ToolState × String :=
  if st.page = false then (st, "No page is open")
  else
    match env.selectEval selector with
    | Except.error e => (st, "Error selecting div: " ++ e.message)
    | Except.ok SelectOutcome.notFound => (st, "Element not found")
    | Except.ok (SelectOutcome.found none) => (st, "No content found")
    | Except.ok (SelectOutcome.found (some t)) =>
      (st, if t = "" then "No content found" else t)

/-- The `previous` handler; its catch interpolates `${error}` (the string
conversion), not `${error.message}`. -/
def goToPreviousPage (env : Env) (st : ToolState) : ToolState × String :=
  if st.page = false then (st, "No page is open")
  else
    match env.goBack with
    | Except.error e => (st, "Error navigating to previous page: " ++ e.displayString)
    | Except.ok _ => (st, "Navigated to previous page")

/-- The `get-html` handler. -/
def getHtml (env : Env) (st : ToolState) : ToolState × String :=
  if st.page = false then (st, "No page is open")
  else
    match env.content with
    | Except.error e => (st, "Error getting HTML: " ++ e.message)
    | Except.ok h => (st, h)

/-- The `get-structured-urls` handler (its evaluate body is modelled
separately as `getStructuredUrlsEval`; here its serialized outcome is an
`Env` observation). -/
def getStructuredUrlsAction (env : Env) (st : ToolState) : ToolState × String :=
  if st.page = false then (st, "No page is open")
  else
    match env.structuredUrls with
    | Except.error e => (st, "Error getting structured URLs: " ++ e.message)
    | Except.ok s => (st, s)

/-- `Object.keys(this.actions)`, in declaration order. -/
def knownActions : List String :=
  ["open", "summarize", "text", "select", "previous", "get-html", "get-structured-urls"]

/-- `Object.keys(this.actions).join(', ')`. -/
def availableActionsMsg : String :=
  "open, summarize, text, select, previous, get-html, get-structured-urls"

/-- The `Unknown action` reply of `_call`. -/
def unknownActionMsg (action : String) : String :=
  "Unknown action: " ++ action ++ ". Available actions: " ++ availableActionsMsg

/-- The parsing block of `_call`: with a space, verb = part before the
first space, trimmed and lowercased, params = the rest trimmed; without a
space, the trimmed lowercased input when it is a known verb (empty
params), else the `open` fallback with the trimmed input as params. -/
def parseActionParams (input : String) : String × String :=
  match splitFirstSpace input with
  | some p => (jsToLower (jsTrimS p.1), jsTrimS p.2)
  | none =>
    if knownActions.contains (jsToLower (jsTrimS input)) then
      (jsToLower (jsTrimS input), "")
    else ("open", jsTrimS input)

/-- The dispatch decision of `_call`: run the named handler, or return the
`Unknown action` string. -/
inductive Dispatched where
  | handler (verb params : String) : Dispatched
  | unknownMsg (msg : String) : Dispatched
deriving Repr, DecidableEq

/-- `_call`'s dispatch on a parsed input. -/
def dispatchOf (input : String) : Dispatched :=
  if knownActions.contains (parseActionParams input).1 then
    Dispatched.handler (parseActionParams input).1 (parseActionParams input).2
  else Dispatched.unknownMsg (unknownActionMsg (parseActionParams input).1)

/-- `this.actions[action](params)`: the handler table. -/
def runAction (env : Env) (st : ToolState) (action params : String) :
    ToolState × String :=
  if action = "open" then openPage env st params
  else if action = "summarize" then summarizePage env st params
  else if action = "text" then getPageText env st params
  else if action = "select" then selectDiv env st params
  else if action = "previous" then goToPreviousPage env st
  else if action = "get-html" then getHtml env st
  else if action = "get-structured-urls" then getStructuredUrlsAction env st
  else (st, unknownActionMsg action)

/-- `_call(input)`: parse, dispatch, and return the handler's (or the
unknown-action) string.  Every handler above is total — each one catches
its own failures — so the dispatcher's surrounding try/catch has nothing
left to catch and the call always returns a string. -/
def toolCall (env : Env) (st : ToolState) (input : String) : ToolState × String :=
  match dispatchOf input with
  | Dispatched.handler a p => runAction env st a p
  | Dispatched.unknownMsg m => (st, m)

/-! ## The `get-structured-urls` evaluate body -/

/-- One anchor of the page as the evaluate body observes it: the resolved
`a.href` property (empty when the attribute is absent), the parsed URL
parts, the trimmed link text, and the two landmark tests
(`a.closest('nav')`, `a.matches('header a, footer a')`). -/
structure PageLink where
  href : String
  hostname : String
  pathname : String
  search : String
  text : String
  inNav : Bool
  inHeaderFooter : Bool

/-- The `${linkText}: ${href}` entry string. -/
def linkEntry (a : PageLink) : String := a.text ++ ": " ++ a.href

/-- The four buckets, in the object-literal's field order. -/
structure UrlStructure where
  search : List String
  navigation : List String
  external : List String
  other : List String
deriving Repr, DecidableEq

/-- The initial empty bucket object. -/
def emptyUrlStructure : UrlStructure := ⟨[], [], [], []⟩

/-- The body of the `forEach` over `document.querySelectorAll('a')`:
skip an empty `href`; same-host links whose `pathname` includes `search`
or whose query includes `q=` go to `search`; else same-host links inside a
nav/header/footer landmark go to `navigation`; else same-host links go to
`other`; different-host links go to `external`. -/
def classifyLink (currentHost : String) (acc : UrlStructure) (a : PageLink) :
    UrlStructure :=
  if a.href = "" then acc
  else if a.hostname = currentHost then
    if containsSub "search" a.pathname || containsSub "q=" a.search then
      { acc with search := acc.search ++ [linkEntry a] }
    else if a.inNav || a.inHeaderFooter then
      { acc with navigation := acc.navigation ++ [linkEntry a] }
    else { acc with other := acc.other ++ [linkEntry a] }
  else { acc with external := acc.external ++ [linkEntry a] }

/-- The whole evaluate body: fold the classifier over the page's anchors
in document order (the `JSON.stringify` serialization is elided; the
claims are about the buckets' contents and order). -/
def getStructuredUrlsEval (currentHost : String) (links : List PageLink) :
    UrlStructure :=
  links.foldl (classifyLink currentHost) emptyUrlStructure

/-- The four bucket names. -/
inductive Bucket where
  | search : Bucket
  | navigation : Bucket
  | other : Bucket
  | external : Bucket
deriving Repr, DecidableEq

/-- The per-link bucket, written from the claim's words ("checked in this
order"): `none` for an empty resolved href; same-host and
(`search` in path or `q=` in query) → search; otherwise same-host and in a
nav/header/footer landmark → navigation; otherwise same-host → other;
different hostname → external. -/
def bucketOf (currentHost : String) (a : PageLink) : Option Bucket :=
  if a.href = "" then none
  else if a.hostname = currentHost then
    if containsSub "search" a.pathname || containsSub "q=" a.search then
      some Bucket.search
    else if a.inNav || a.inHeaderFooter then some Bucket.navigation
    else some Bucket.other
  else some Bucket.external

/-! ## The claims written as the spec states them, and concrete
environments for the counterexamples and witnesses -/

/-- Claim C5 exactly as stated: with a space, the token before the first
space, lowercased, is the verb (no trimming is mentioned) and the
remainder, trimmed, the parameter — unknown verbs give the enumerating
error string; with no space, a known (lowercased, trimmed) input runs as
that verb with empty parameters, and an unknown one as `open` with *the
entire input* as the URL parameter. -/
def C5AsStated : Prop :=
  ∀ (input before after : String),
    (splitFirstSpace input = some (before, after) →
      (knownActions.contains (jsToLower before) = true →
        dispatchOf input = Dispatched.handler (jsToLower before) (jsTrimS after))
      ∧ (knownActions.contains (jsToLower before) = false →
        dispatchOf input = Dispatched.unknownMsg (unknownActionMsg (jsToLower before))))
    ∧ (splitFirstSpace input = none →
      (knownActions.contains (jsToLower (jsTrimS input)) = true →
        dispatchOf input = Dispatched.handler (jsToLower (jsTrimS input)) "")
      ∧ (knownActions.contains (jsToLower (jsTrimS input)) = false →
        dispatchOf input = Dispatched.handler "open" input))

/-- The six session-requiring verbs of claim C7. -/
def sessionVerbs : List String :=
  ["summarize", "text", "select", "previous", "get-html", "get-structured-urls"]

/-- The two `NoPageOpen`-class advisory strings the handlers use. -/
def advisoryStrings : List String :=
  ["No page is open", noPageTextMsg]

/-- Claim C7 exactly as stated: every session-requiring verb called with
no page open returns an advisory string and leaves the page handle
unchanged. -/
def C7AsStated : Prop :=
  ∀ (env : Env) (verb : String), verb ∈ sessionVerbs →
    (toolCall env ⟨false⟩ verb).1 = (⟨false⟩ : ToolState)
    ∧ (toolCall env ⟨false⟩ verb).2 ∈ advisoryStrings

/-- An environment whose primitives all succeed. -/
def envStub : Env :=
  { puppeteer := true
    newPage := Except.ok ()
    goto := fun _ => Except.ok ()
    goBack := Except.ok ()
    content := Except.ok "<html></html>"
    evalPageText := Except.ok "PAGE TEXT"
    semanticSearch := fun _ _ => Except.ok "FILTERED TEXT"
    modelInvoke := fun _ => Except.ok "MODEL OUTPUT"
    selectEval := fun _ => Except.ok SelectOutcome.notFound
    structuredUrls := Except.ok "URLS" }

/-- `envStub` with a navigation that throws `Error('timeout')`. -/
def envGotoFail : Env :=
  { envStub with goto := fun _ => Except.error (JsErr.errObj "timeout") }

/-- An environment whose effectful primitives all throw
`Error('boom')`. -/
def envAllFail : Env :=
  { puppeteer := true
    newPage := Except.ok ()
    goto := fun _ => Except.error (JsErr.errObj "boom")
    goBack := Except.error (JsErr.errObj "boom")
    content := Except.error (JsErr.errObj "boom")
    evalPageText := Except.error (JsErr.errObj "boom")
    semanticSearch := fun _ _ => Except.error (JsErr.errObj "boom")
    modelInvoke := fun _ => Except.error (JsErr.errObj "boom")
    selectEval := fun _ => Except.error (JsErr.errObj "boom")
    structuredUrls := Except.error (JsErr.errObj "boom") }

/-! ## Helper lemmas for the lock -/

theorem jsIndexOf_nonneg_or (a : Nat) :
    ∀ l : List Nat, jsIndexOf l a = -1 ∨ 0 ≤ jsIndexOf l a := by
  intro l
  induction l with
  | nil => exact Or.inl rfl
  | cons x rest ih =>
    by_cases hx : x = a
    · right; simp [jsIndexOf, hx]
    · rcases ih with h | h
      · left; simp [jsIndexOf, hx, h]
      · by_cases h1 : jsIndexOf rest a = -1
        · left; simp [jsIndexOf, hx, h1]
        · right; simp [jsIndexOf, hx, h1]; omega

theorem jsIndexOf_eq_neg_one_iff (a : Nat) :
    ∀ l : List Nat, jsIndexOf l a = -1 ↔ a ∉ l := by
  intro l
  induction l with
  | nil => simp [jsIndexOf]
  | cons x rest ih =>
    by_cases hx : x = a
    · simp [jsIndexOf, hx]
    · by_cases h1 : jsIndexOf rest a = -1
      · simp [jsIndexOf, hx, h1, ih.1 h1]
        intro hax; exact hx hax.symm
      · have hmem : a ∈ rest := by
          by_contra hx2
          exact h1 (ih.2 hx2)
        rcases jsIndexOf_nonneg_or a rest with h2 | h2
        · exact absurd h2 h1
        · simp [jsIndexOf, hx, h1, hmem]
          omega

theorem eraseIdx_jsIndexOf (a : Nat) :
    ∀ l : List Nat, a ∈ l → l.eraseIdx (jsIndexOf l a).toNat = l.erase a := by
  intro l
  induction l with
  | nil => intro h; cases h
  | cons x rest ih =>
    intro hmem
    by_cases hx : x = a
    · simp [jsIndexOf, hx, List.eraseIdx, List.erase_cons]
    · have hmem2 : a ∈ rest := by
        cases hmem with
        | head => exact absurd rfl hx
        | tail _ h => exact h
      have h1 : jsIndexOf rest a ≠ -1 :=
        fun h => ((jsIndexOf_eq_neg_one_iff a rest).1 h) hmem2
      rcases jsIndexOf_nonneg_or a rest with h2 | h2
      · exact absurd h2 h1
      · have htn : (jsIndexOf rest a + 1).toNat = (jsIndexOf rest a).toNat + 1 := by
          omega
        have hxa : (x == a) = false := by simp [hx]
        simp [jsIndexOf, hx, h1, htn, List.eraseIdx, List.erase_cons, hxa, ih hmem2]

/-- A successful `unlock` clears the flag and erases the first (here:
only) occurrence of the ticket. -/
theorem unlock_eq_ok (s : ObjectLock) (tid : Nat)
    (hl : s.lock = true) (hm : tid ∈ s.queue) :
    s.unlock tid = Except.ok ⟨false, s.queue.erase tid, s.currentId⟩ := by
  have h1 : jsIndexOf s.queue tid ≠ -1 :=
    fun h => ((jsIndexOf_eq_neg_one_iff tid s.queue).1 h) hm
  simp [ObjectLock.unlock, hl, h1, eraseIdx_jsIndexOf tid s.queue hm]

/-- `unlock` throws exactly when the lock is not held or the ticket is
not queued. -/
theorem unlock_error_iff (s : ObjectLock) (tid : Nat) :
    (∃ msg, s.unlock tid = Except.error msg) ↔ (s.lock = false ∨ tid ∉ s.queue) := by
  constructor
  · rintro ⟨msg, hmsg⟩
    by_cases hl : s.lock = false
    · exact Or.inl hl
    · right
      intro hmem
      have := unlock_eq_ok s tid (by simpa using hl) hmem
      rw [this] at hmsg
      cases hmsg
  · intro h
    rcases h with hl | hm
    · exact ⟨"unlock without lock", by simp [ObjectLock.unlock, hl]⟩
    · refine ⟨"unlock without lock", ?_⟩
      have h1 : jsIndexOf s.queue tid = -1 := (jsIndexOf_eq_neg_one_iff tid s.queue).2 hm
      by_cases hl : s.lock = false
      · simp [ObjectLock.unlock, hl]
      · simp [ObjectLock.unlock, hl, h1]

/-- Claim C1 (code_bug): the claim — at any instant at most one ticket
holds the lock, and the holder is always the lowest id among tickets
enqueued and not yet released (strict FIFO) — fails on the code, which is
evaluated here at the failing interleavings.  On `c1trace1` (proper use:
ticket 0 acquires and is properly unlocked; ticket 1 is still polling; a
third `lock()` call arrives before ticket 1's next poll) the lock is held
by ticket 2 while the lower ticket 1 is still enqueued, unreleased and
waiting: the fast path of `lock()` tests only `_lock`, never the queue
head.  On `c1trace2` (a stale caller unlocks the *queued* ticket 1 while
ticket 0 holds the lock) tickets 0 and 2 end up holding simultaneously. -/
theorem c1_fifo_violation :
    ((runEvents c1trace1).holders = [2]
      ∧ (runEvents c1trace1).waiting = [1]
      ∧ (runEvents c1trace1).st.queue = [1, 2]
      ∧ (runEvents c1trace1).st.lock = true)
    ∧ (runEvents c1trace2).holders = [0, 2] := by decide

/-- Claim C2: `unlock(ticketId)` throws the `ImproperUnlock` error iff
the lock is not held or the ticket is not queued; a throw leaves the
whole state unchanged; a success clears the lock flag and removes exactly
the `ticketId` entry, keeping every other entry in its relative order. -/
theorem c2_unlock_spec (s : ObjectLock) (tid : Nat) :
    ((∃ msg, s.unlock tid = Except.error msg) ↔ (s.lock = false ∨ tid ∉ s.queue))
    ∧ (∀ s', s.unlock tid = Except.ok s' →
        s'.lock = false ∧ s'.currentId = s.currentId ∧ s'.queue = s.queue.erase tid
        ∧ ∃ l₁ l₂, tid ∉ l₁ ∧ s.queue = l₁ ++ tid :: l₂ ∧ s'.queue = l₁ ++ l₂)
    ∧ (∀ holders waiting, (s.lock = false ∨ tid ∉ s.queue) →
        lockStep ⟨s, holders, waiting⟩ (LockEvent.unlockCall tid) = ⟨s, holders, waiting⟩) := by
  refine ⟨unlock_error_iff s tid, ?_, ?_⟩
  · intro s' hok
    have hl : s.lock = true := by
      by_contra hl
      have hf : s.lock = false := by simpa using hl
      rcases (unlock_error_iff s tid).2 (Or.inl hf) with ⟨msg, hmsg⟩
      rw [hmsg] at hok; cases hok
    have hm : tid ∈ s.queue := by
      by_contra hm
      rcases (unlock_error_iff s tid).2 (Or.inr hm) with ⟨msg, hmsg⟩
      rw [hmsg] at hok; cases hok
    have := unlock_eq_ok s tid hl hm
    rw [this] at hok
    cases hok
    obtain ⟨l₁, l₂, hnot, heq, herase⟩ := List.exists_erase_eq hm
    exact ⟨rfl, rfl, rfl, l₁, l₂, hnot, heq, herase⟩
  · intro holders waiting herr
    rcases (unlock_error_iff s tid).2 herr with ⟨msg, hmsg⟩
    simp [lockStep, hmsg]

/-- Claim C2's witness: the concrete lock `⟨true, [5, 7], 9⟩`; unlocking
the queued ticket 5 succeeds as specified, unlocking the absent ticket 9
leaves the state unchanged. -/
theorem c2_unlock_spec_witness :
    ((⟨false, [7], 9⟩ : ObjectLock).lock = false
      ∧ (⟨false, [7], 9⟩ : ObjectLock).currentId = (⟨true, [5, 7], 9⟩ : ObjectLock).currentId
      ∧ (⟨false, [7], 9⟩ : ObjectLock).queue = (⟨true, [5, 7], 9⟩ : ObjectLock).queue.erase 5
      ∧ ∃ l₁ l₂, 5 ∉ l₁ ∧ (⟨true, [5, 7], 9⟩ : ObjectLock).queue = l₁ ++ 5 :: l₂
        ∧ (⟨false, [7], 9⟩ : ObjectLock).queue = l₁ ++ l₂)
    ∧ lockStep ⟨⟨true, [5, 7], 9⟩, [5], []⟩ (LockEvent.unlockCall 9)
        = ⟨⟨true, [5, 7], 9⟩, [5], []⟩ :=
  ⟨(c2_unlock_spec ⟨true, [5, 7], 9⟩ 5).2.1 ⟨false, [7], 9⟩ rfl,
   (c2_unlock_spec ⟨true, [5, 7], 9⟩ 9).2.2 [5] [] (Or.inr (by decide))⟩

theorem unlock_ok_currentId (s : ObjectLock) (tid : Nat) (s' : ObjectLock)
    (h : s.unlock tid = Except.ok s') : s'.currentId = s.currentId := by
  unfold ObjectLock.unlock at h
  by_cases h1 : s.lock = false
  · simp [h1] at h
  · by_cases h2 : jsIndexOf s.queue tid = -1
    · simp [h1, h2] at h
    · simp [h1, h2] at h
      rw [← h]

theorem lockStep_currentId (w : LockWorld) (e : LockEvent) :
    (lockStep w e).st.currentId = w.st.currentId + numLocks [e] := by
  cases e with
  | lockCall =>
    by_cases h : w.st.lock <;> simp [lockStep, h, numLocks]
  | poll tid =>
    by_cases h : tid ∈ w.waiting ∧ w.st.queue.head? = some tid ∧ w.st.lock = false <;>
      simp [lockStep, h, numLocks]
  | unlockCall tid =>
    cases h : w.st.unlock tid with
    | error e => simp [lockStep, h, numLocks]
    | ok s' => simp [lockStep, h, numLocks, unlock_ok_currentId w.st tid s' h]

theorem ticketsFrom_eq (evs : List LockEvent) :
    ∀ w : LockWorld, ticketsFrom w evs = idsFrom w.st.currentId (numLocks evs) := by
  induction evs with
  | nil => intro w; simp [ticketsFrom, numLocks, idsFrom]
  | cons e r ih =>
    intro w
    have hc := lockStep_currentId w e
    cases e with
    | lockCall =>
      simp [ticketsFrom, numLocks, idsFrom, ih (lockStep w LockEvent.lockCall)]
      rw [hc]; simp [numLocks]
    | poll tid =>
      simp [ticketsFrom, numLocks, ih (lockStep w (LockEvent.poll tid))]
      rw [hc]; simp [numLocks]
    | unlockCall tid =>
      simp [ticketsFrom, numLocks, ih (lockStep w (LockEvent.unlockCall tid))]
      rw [hc]; simp [numLocks]

theorem idsFrom_mem (n : Nat) :
    ∀ start x, x ∈ idsFrom start n → start ≤ x := by
  induction n with
  | zero => intro start x h; simp [idsFrom] at h
  | succ n ih =>
    intro start x h
    simp [idsFrom] at h
    rcases h with h | h
    · omega
    · have := ih (start + 1) x h; omega

theorem idsFrom_pairwise (n : Nat) :
    ∀ start, (idsFrom start n).Pairwise (· < ·) := by
  induction n with
  | zero => intro start; simp [idsFrom]
  | succ n ih =>
    intro start
    simp [idsFrom, List.pairwise_cons]
    refine ⟨?_, ih (start + 1)⟩
    intro x hx
    have := idsFrom_mem n (start + 1) x hx
    omega

/-- Claim C3: `lock()` has no error path — along every trace each
`lockCall` step issues exactly one ticket — and the issued tickets are
`0, 1, 2, …` in call order: strictly increasing (each one greater than
every earlier one) and unique for the lifetime of the instance. -/
theorem c3_lock_tickets (evs : List LockEvent) :
    ticketsFrom initWorld evs = idsFrom 0 (numLocks evs)
    ∧ (ticketsFrom initWorld evs).Pairwise (· < ·)
    ∧ (ticketsFrom initWorld evs).Nodup := by
  have h := ticketsFrom_eq evs initWorld
  have hp : (ticketsFrom initWorld evs).Pairwise (· < ·) := by
    rw [h]; exact idsFrom_pairwise (numLocks evs) 0
  exact ⟨h, hp, hp.imp Nat.ne_of_lt⟩

/-- Claim C4: `runLocked(fn)` acquires the lock (for an immediately
acquirable lock: `s.lock = false`, fresh ticket id) and runs `fn`; when
`fn` succeeds the lock is released, the ticket removed and the result
returned; when `fn` throws, the error propagates with the lock flag still
set and the ticket still queued — the source has no release on failure. -/
theorem c4_runLocked_spec {α : Type} (s : ObjectLock) (fn : Except String α)
    (hlock : s.lock = false) (hfresh : s.currentId ∉ s.queue) :
    (∀ v, fn = Except.ok v →
      s.runLocked fn = (⟨false, s.queue, s.currentId + 1⟩, Except.ok v))
    ∧ (∀ e, fn = Except.error e →
      s.runLocked fn = (⟨true, s.queue ++ [s.currentId], s.currentId + 1⟩, Except.error e)) := by
  constructor
  · intro v hv
    subst hv
    have hm : s.currentId ∈ s.queue ++ [s.currentId] := by simp
    have hu := unlock_eq_ok ⟨true, s.queue ++ [s.currentId], s.currentId + 1⟩
      s.currentId rfl hm
    have herase : (s.queue ++ [s.currentId]).erase s.currentId = s.queue := by
      rw [List.erase_append_right _ hfresh]
      simp
    simp [ObjectLock.runLocked, ObjectLock.lockNow, hu, herase]
  · intro e he
    subst he
    simp [ObjectLock.runLocked, ObjectLock.lockNow]

/-- Claim C4's witness: both outcomes on the fresh lock `⟨false, [], 0⟩`. -/
theorem c4_runLocked_spec_witness :
    ObjectLock.runLocked ⟨false, [], 0⟩ (Except.ok 42)
      = (⟨false, [], 1⟩, Except.ok 42)
    ∧ ObjectLock.runLocked ⟨false, [], 0⟩ (Except.error "boom" : Except String Nat)
      = (⟨true, [0], 1⟩, Except.error "boom") :=
  ⟨(c4_runLocked_spec ⟨false, [], 0⟩ (Except.ok 42) rfl (by decide)).1 42 rfl,
   (c4_runLocked_spec ⟨false, [], 0⟩ (Except.error "boom") rfl (by decide)).2 "boom" rfl⟩

/-! ## The dispatcher claims -/

/-- Claim C5 (counterexample): the claim as stated fails — for the
spaceless input `"\thttp://x"` (a leading tab, no space) the code
dispatches `open` with the *trimmed* input `"http://x"` as the URL
parameter, not with the entire input as the claim states. -/
theorem c5_counterexample : ¬ C5AsStated := by
  intro h
  have h2 := ((h "\thttp://x" "" "").2 (by decide)).2 (by decide)
  have h3 : dispatchOf "\thttp://x" = Dispatched.handler "open" "http://x" := by decide
  rw [h2] at h3
  exact absurd h3 (by decide)

/-- Claim C5 as amended: with a space, the token before the first space
(trimmed, lowercased) is the verb and the remainder (trimmed) the
parameter, unknown such verbs giving the enumerating error string without
raising; with no space, a known (trimmed, lowercased) input dispatches as
that verb with empty parameters, and an unknown one as `open` with the
trimmed input as the URL parameter. -/
theorem c5_amended (input before after : String) :
    (splitFirstSpace input = some (before, after) →
      (knownActions.contains (jsToLower (jsTrimS before)) = true →
        dispatchOf input = Dispatched.handler (jsToLower (jsTrimS before)) (jsTrimS after))
      ∧ (knownActions.contains (jsToLower (jsTrimS before)) = false →
        dispatchOf input
          = Dispatched.unknownMsg (unknownActionMsg (jsToLower (jsTrimS before)))))
    ∧ (splitFirstSpace input = none →
      (knownActions.contains (jsToLower (jsTrimS input)) = true →
        dispatchOf input = Dispatched.handler (jsToLower (jsTrimS input)) "")
      ∧ (knownActions.contains (jsToLower (jsTrimS input)) = false →
        dispatchOf input = Dispatched.handler "open" (jsTrimS input))) := by
  have hopen : knownActions.contains "open" = true := by decide
  constructor
  · intro hsplit
    have hpp : parseActionParams input = (jsToLower (jsTrimS before), jsTrimS after) := by
      unfold parseActionParams
      rw [hsplit]
    constructor <;> intro hk
    · unfold dispatchOf
      rw [hpp, hk]
      simp
    · unfold dispatchOf
      rw [hpp, hk]
      simp
  · intro hsplit
    constructor <;> intro hk
    · have hpp : parseActionParams input = (jsToLower (jsTrimS input), "") := by
        unfold parseActionParams
        rw [hsplit, hk]
        simp
      unfold dispatchOf
      rw [hpp, hk]
      simp
    · have hpp : parseActionParams input = ("open", jsTrimS input) := by
        unfold parseActionParams
        rw [hsplit, hk]
        simp
      unfold dispatchOf
      rw [hpp, hopen]
      simp

/-- Claim C5's amended witness: one concrete input per parsing clause. -/
theorem c5_amended_witness :
    dispatchOf "open https://example.com"
      = Dispatched.handler (jsToLower (jsTrimS "open")) (jsTrimS "https://example.com")
    ∧ dispatchOf "bogus foo"
      = Dispatched.unknownMsg (unknownActionMsg (jsToLower (jsTrimS "bogus")))
    ∧ dispatchOf "TEXT" = Dispatched.handler (jsToLower (jsTrimS "TEXT")) ""
    ∧ dispatchOf "https://example.com"
      = Dispatched.handler "open" (jsTrimS "https://example.com") :=
  ⟨((c5_amended "open https://example.com" "open" "https://example.com").1
      (by decide)).1 (by decide),
   ((c5_amended "bogus foo" "bogus" "foo").1 (by decide)).2 (by decide),
   ((c5_amended "TEXT" "" "").2 (by decide)).1 (by decide),
   ((c5_amended "https://example.com" "" "").2 (by decide)).2 (by decide)⟩

/-- Claim C6 (counterexample): a navigation failure inside the `open`
handler is converted to `"Error opening page: timeout"` — a string that
does not carry the prefix `"Error:"` claimed by the spec (the handler
prefixes read `Error <context>:`). -/
theorem c6_counterexample :
    (toolCall envGotoFail ⟨false⟩ "open https://example.com").2
      = "Error opening page: timeout"
    ∧ isPrefixOfL "Error:".data ("Error opening page: timeout").data = false := by
  decide

/-- Claim C6 as amended: the call entry point always returns a string
(every handler is total: each injected primitive failure is converted to
a returned string, never rethrown), and each verb handler converts its
failures to a descriptive string prefixed `Error` — concretely
`Error <context>: <message>` (the `previous` handler interpolates the
error's string conversion instead of its message). -/
theorem c6_amended (env : Env) (st : ToolState) (p : String) (e : JsErr)
    (hpage : st.page = true) :
    (env.goto p = Except.error e →
      (openPage env st p).2 = "Error opening page: " ++ e.message)
    ∧ (env.goBack = Except.error e →
      (goToPreviousPage env st).2 = "Error navigating to previous page: " ++ e.displayString)
    ∧ (env.content = Except.error e →
      (getHtml env st).2 = "Error getting HTML: " ++ e.message)
    ∧ (env.structuredUrls = Except.error e →
      (getStructuredUrlsAction env st).2 = "Error getting structured URLs: " ++ e.message)
    ∧ (env.selectEval p = Except.error e →
      (selectDiv env st p).2 = "Error selecting div: " ++ e.message)
    ∧ (env.evalPageText = Except.error e →
      (getPageText env st p).2 = "Error getting page text: " ++ e.message)
    ∧ (env.modelInvoke (summaryPrompt p "") = Except.error e →
      summarizeText env p "" = "Error summarizing text: " ++ e.message) := by
  obtain ⟨pg⟩ := st
  cases pg
  · cases hpage
  · refine ⟨?_, ?_, ?_, ?_, ?_, ?_, ?_⟩ <;> intro h
    · simp [openPage, initBrowser, h]
    · simp [goToPreviousPage, h]
    · simp [getHtml, h]
    · simp [getStructuredUrlsAction, h]
    · simp [selectDiv, h]
    · simp [getPageText, h]
    · simp [summarizeText, h]

/-- Claim C6's amended witness: the all-failing environment. -/
theorem c6_amended_witness :
    (openPage envAllFail ⟨true⟩ "x").2 = "Error opening page: boom"
    ∧ (goToPreviousPage envAllFail ⟨true⟩).2
      = "Error navigating to previous page: Error: boom"
    ∧ (getHtml envAllFail ⟨true⟩).2 = "Error getting HTML: boom"
    ∧ (getStructuredUrlsAction envAllFail ⟨true⟩).2 = "Error getting structured URLs: boom"
    ∧ (selectDiv envAllFail ⟨true⟩ "x").2 = "Error selecting div: boom"
    ∧ (getPageText envAllFail ⟨true⟩ "x").2 = "Error getting page text: boom"
    ∧ summarizeText envAllFail "x" "" = "Error summarizing text: boom" := by
  have h := c6_amended envAllFail ⟨true⟩ "x" (JsErr.errObj "boom") rfl
  exact ⟨h.1 rfl, h.2.1 rfl, h.2.2.1 rfl, h.2.2.2.1 rfl, h.2.2.2.2.1 rfl,
    h.2.2.2.2.2.1 rfl, h.2.2.2.2.2.2 rfl⟩

/-- Claim C7 (counterexample): `summarize` issued with no page open does
not return a `NoPageOpen` advisory — it feeds the advisory text into the
language model and returns the model's output (here `"MODEL OUTPUT"`). -/
theorem c7_counterexample : ¬ C7AsStated := by
  intro h
  have h2 := (h envStub "summarize" (by decide)).2
  exact absurd h2 (by decide)

/-- Claim C7 as amended: with no page open, `text`, `select`, `previous`,
`get-html` and `get-structured-urls` each return their `NoPageOpen`
advisory string and leave the page handle unchanged; `summarize` also
leaves the handle unchanged but returns the summarizer's output on the
advisory text instead of the advisory itself. -/
theorem c7_amended (env : Env) (st : ToolState) (hpage : st.page = false) :
    toolCall env st "text" = (st, noPageTextMsg)
    ∧ toolCall env st "select" = (st, "No page is open")
    ∧ toolCall env st "previous" = (st, "No page is open")
    ∧ toolCall env st "get-html" = (st, "No page is open")
    ∧ toolCall env st "get-structured-urls" = (st, "No page is open")
    ∧ toolCall env st "summarize" = (st, summarizeText env noPageTextMsg "") := by
  obtain ⟨pg⟩ := st
  cases pg
  · exact ⟨rfl, rfl, rfl, rfl, rfl, rfl⟩
  · cases hpage

/-- Claim C7's amended witness. -/
theorem c7_amended_witness :
    toolCall envStub ⟨false⟩ "text" = (⟨false⟩, noPageTextMsg)
    ∧ toolCall envStub ⟨false⟩ "select" = (⟨false⟩, "No page is open")
    ∧ toolCall envStub ⟨false⟩ "previous" = (⟨false⟩, "No page is open")
    ∧ toolCall envStub ⟨false⟩ "get-html" = (⟨false⟩, "No page is open")
    ∧ toolCall envStub ⟨false⟩ "get-structured-urls" = (⟨false⟩, "No page is open")
    ∧ toolCall envStub ⟨false⟩ "summarize"
      = (⟨false⟩, summarizeText envStub noPageTextMsg "") :=
  c7_amended envStub ⟨false⟩ rfl

/-- Claim C10: `open` is not atomic on failure — with the browser
capability available, the page handle is created before navigation, so
when `goto` fails the call returns the error string while the page handle
stays non-null, and a subsequent session-requiring verb (`get-html`)
returns the page content rather than the no-page advisory. -/
theorem c10_open_not_atomic (env : Env) (st : ToolState) (url msg html : String)
    (hp : env.puppeteer = true) (hn : env.newPage = Except.ok ())
    (hg : env.goto url = Except.error (JsErr.errObj msg))
    (hc : env.content = Except.ok html) :
    openPage env st url = (⟨true⟩, "Error opening page: " ++ msg)
    ∧ toolCall env ⟨true⟩ "get-html" = (⟨true⟩, html) := by
  constructor
  · obtain ⟨pg⟩ := st
    cases pg <;> simp [openPage, initBrowser, hp, hn, hg, JsErr.message]
  · have hbridge : toolCall env (⟨true⟩ : ToolState) "get-html" = getHtml env ⟨true⟩ := rfl
    rw [hbridge]
    simp [getHtml, hc]

/-- Claim C10's witness. -/
theorem c10_open_not_atomic_witness :
    openPage envGotoFail ⟨false⟩ "https://example.com"
      = (⟨true⟩, "Error opening page: " ++ "timeout")
    ∧ toolCall envGotoFail ⟨true⟩ "get-html" = (⟨true⟩, "<html></html>") :=
  c10_open_not_atomic envGotoFail ⟨false⟩ "https://example.com" "timeout"
    "<html></html>" rfl rfl rfl rfl

/-! ## The extraction post-processing claim -/

theorem dropWhile_head_all (p : Char → Bool) (l : List Char) :
    (l.dropWhile p).head?.all (fun c => !p c) = true := by
  induction l with
  | nil => rfl
  | cons c rest ih =>
    by_cases h : p c
    · simpa [List.dropWhile_cons, h] using ih
    · simp [List.dropWhile_cons, h]

theorem jsTrimL_getLast_all (l : List Char) :
    (jsTrimL l).getLast?.all (fun c => !c.isWhitespace) = true := by
  unfold jsTrimL
  rw [List.getLast?_reverse]
  exact dropWhile_head_all _ _

theorem getLast?_suffix {u v : List Char} (h : u <:+ v) (hne : u ≠ []) :
    u.getLast? = v.getLast? := by
  obtain ⟨w, hw⟩ := h
  subst hw
  exact (List.getLast?_append_of_ne_nil _ hne).symm

theorem jsTrimL_head_all (l : List Char) :
    (jsTrimL l).head?.all (fun c => !c.isWhitespace) = true := by
  unfold jsTrimL
  rw [List.head?_reverse]
  by_cases hne : (l.dropWhile Char.isWhitespace).reverse.dropWhile Char.isWhitespace = []
  · simp [hne]
  · rw [getLast?_suffix (List.dropWhile_suffix _) hne, List.getLast?_reverse]
    exact dropWhile_head_all _ _

theorem noTriple_cons_of (c : Char) (X : List Char) (hc : ¬ c = '\n')
    (h : noTriple X = true) : noTriple (c :: X) = true := by
  match X with
  | [] => rfl
  | [b] => rfl
  | b :: d :: r =>
    have hcb : (c == '\n') = false := by simp [hc]
    simp [noTriple, hcb]
    exact h

theorem noTriple_cons2_of (y c : Char) (X : List Char) (hc : ¬ c = '\n')
    (h : noTriple (c :: X) = true) : noTriple (y :: c :: X) = true := by
  match X with
  | [] => rfl
  | d :: r =>
    have hcb : (c == '\n') = false := by simp [hc]
    simp [noTriple, hcb]
    simpa [noTriple] using h

theorem noTriple_tail (a : Char) (rest : List Char)
    (h : noTriple (a :: rest) = true) : noTriple rest = true := by
  match rest with
  | [] => rfl
  | [b] => rfl
  | b :: d :: r =>
    simp [noTriple] at h
    exact h.2

theorem noTriple_replicate_prefix (m : Nat) (hm : m ≤ 2) (c : Char)
    (X : List Char) (hc : ¬ c = '\n') (h : noTriple X = true) :
    noTriple (List.replicate m '\n' ++ c :: X) = true := by
  have h1 := noTriple_cons_of c X hc h
  interval_cases m
  · simpa using h1
  · simpa [List.replicate] using noTriple_cons2_of '\n' c X hc h1
  · have h2 := noTriple_cons2_of '\n' c X hc h1
    have hcb : (c == '\n') = false := by simp [hc]
    match X with
    | [] => simp [List.replicate, noTriple, hcb]
    | d :: r =>
      simp [List.replicate, noTriple, hcb] at h2 ⊢
      exact h2

theorem noTriple_collapseAux (l : List Char) :
    ∀ pending, noTriple (collapseAux l pending) = true := by
  induction l with
  | nil =>
    intro pending
    obtain h | h | h : min pending 2 = 0 ∨ min pending 2 = 1 ∨ min pending 2 = 2 := by
      omega
    all_goals simp [collapseAux, h, List.replicate, noTriple]
  | cons c rest ih =>
    intro pending
    by_cases hc : c = '\n'
    · simpa [collapseAux, hc] using ih (pending + 1)
    · have heq : collapseAux (c :: rest) pending
          = List.replicate (min pending 2) '\n' ++ c :: collapseAux rest 0 := by
        simp [collapseAux, hc]
      rw [heq]
      exact noTriple_replicate_prefix _ (Nat.min_le_right _ _) c _ hc (ih 0)

theorem not_triple_infix_of_noTriple (l : List Char) (h : noTriple l = true) :
    ¬ (['\n', '\n', '\n'] <:+: l) := by
  induction l with
  | nil =>
    intro hin
    have := hin.length_le
    simp at this
  | cons a rest ih =>
    intro hin
    rcases List.infix_cons_iff.1 hin with hpre | hinf
    · obtain ⟨t, ht⟩ := hpre
      injection ht with h1 h2
      subst h1
      subst h2
      simp [noTriple] at h
    · exact ih (noTriple_tail a rest h) hinf

theorem collapseAux_getLast (c : Char) (hc : ¬ c = '\n') :
    ∀ (l : List Char) (pending : Nat), l.getLast? = some c →
      (collapseAux l pending).getLast? = some c := by
  intro l
  induction l with
  | nil => intro p h; simp at h
  | cons a rest ih =>
    intro p h
    cases rest with
    | nil =>
      simp at h
      subst h
      rw [show collapseAux [a] p = List.replicate (min p 2) '\n' ++ [a] by
        simp [collapseAux, hc]]
      rw [List.getLast?_append_of_ne_nil _ (by simp)]
      simp
    | cons b r =>
      have hlast : (b :: r).getLast? = some c := by
        rw [List.getLast?_cons_cons] at h
        exact h
      by_cases ha : a = '\n'
      · rw [show collapseAux (a :: b :: r) p = collapseAux (b :: r) (p + 1) by
          simp [collapseAux, ha]]
        exact ih (p + 1) hlast
      · have hnonnil : collapseAux (b :: r) 0 ≠ [] := by
          intro hnil
          have h2 := ih 0 hlast
          rw [hnil] at h2
          simp at h2
        rw [show collapseAux (a :: b :: r) p
            = List.replicate (min p 2) '\n' ++ a :: collapseAux (b :: r) 0 by
          simp [collapseAux, ha]]
        rw [List.getLast?_append_of_ne_nil _ (by simp)]
        cases hX : collapseAux (b :: r) 0 with
        | nil => exact absurd hX hnonnil
        | cons x xs =>
          rw [List.getLast?_cons_cons, ← hX]
          exact ih 0 hlast

/-- Claim C8: for every string the DOM walk may have produced, the
post-processed extraction result (`trim` then collapse of newline runs)
has no leading and no trailing whitespace and never contains three or
more consecutive newlines — every run of three or more newlines is
collapsed to exactly two. -/
theorem c8_postprocess (s : List Char) :
    (postProcess s).head?.all (fun c => !c.isWhitespace) = true
    ∧ (postProcess s).getLast?.all (fun c => !c.isWhitespace) = true
    ∧ ¬ (['\n', '\n', '\n'] <:+: postProcess s) := by
  refine ⟨?_, ?_,
    not_triple_infix_of_noTriple _ (noTriple_collapseAux (jsTrimL s) 0)⟩
  · have ht := jsTrimL_head_all s
    cases hE : jsTrimL s with
    | nil => simp [postProcess, collapseNewlines, hE, collapseAux]
    | cons c rest =>
      rw [hE] at ht
      simp at ht
      have hc : ¬ c = '\n' := by
        intro hcc
        rw [hcc] at ht
        simp at ht
      have heq : postProcess s = c :: collapseAux rest 0 := by
        simp [postProcess, collapseNewlines, hE, collapseAux, hc]
      rw [heq]
      simpa using ht
  · have ht := jsTrimL_getLast_all s
    cases hE : (jsTrimL s).getLast? with
    | none =>
      have hnil : jsTrimL s = [] := by
        cases hl : jsTrimL s with
        | nil => rfl
        | cons c rest => rw [hl] at hE; simp [List.getLast?_cons] at hE
      simp [postProcess, collapseNewlines, hnil, collapseAux]
    | some c =>
      rw [hE] at ht
      simp at ht
      have hc : ¬ c = '\n' := by
        intro hcc
        rw [hcc] at ht
        simp at ht
      have hg := collapseAux_getLast c hc (jsTrimL s) 0 hE
      unfold postProcess collapseNewlines
      rw [hg]
      simpa using ht

/-! ## The URL-classification claim -/

/-- Per link, the fold's classifier agrees with the spec-side bucket
function. -/
theorem classifyLink_eq (host : String) (acc : UrlStructure) (a : PageLink) :
    classifyLink host acc a =
      match bucketOf host a with
      | none => acc
      | some Bucket.search => { acc with search := acc.search ++ [linkEntry a] }
      | some Bucket.navigation =>
        { acc with navigation := acc.navigation ++ [linkEntry a] }
      | some Bucket.other => { acc with other := acc.other ++ [linkEntry a] }
      | some Bucket.external =>
        { acc with external := acc.external ++ [linkEntry a] } := by
  unfold classifyLink bucketOf
  split_ifs <;> rfl

theorem foldl_classify (host : String) (links : List PageLink) :
    ∀ acc : UrlStructure,
      List.foldl (classifyLink host) acc links =
        { search := acc.search
            ++ (links.filter fun a => decide (bucketOf host a = some Bucket.search)).map linkEntry
          navigation := acc.navigation
            ++ (links.filter fun a => decide (bucketOf host a = some Bucket.navigation)).map linkEntry
          external := acc.external
            ++ (links.filter fun a => decide (bucketOf host a = some Bucket.external)).map linkEntry
          other := acc.other
            ++ (links.filter fun a => decide (bucketOf host a = some Bucket.other)).map linkEntry } := by
  induction links with
  | nil => intro acc; simp
  | cons a ls ih =>
    intro acc
    rw [List.foldl_cons, classifyLink_eq]
    cases hb : bucketOf host a with
    | none => simp [ih, hb, List.filter_cons]
    | some b =>
      cases b <;> simp [ih, hb, List.filter_cons]

/-- Claim C9: `get-structured-urls` assigns every anchor with a non-empty
resolved href to exactly the bucket `bucketOf` names (rules checked in
the claim's order), each entry is `linkText: url`, and every bucket lists
its links in document order — the fold equals, bucket by bucket, the
order-preserving filter of the anchors by their bucket, mapped to entry
strings. -/
theorem c9_structured_urls (host : String) (links : List PageLink) :
    getStructuredUrlsEval host links =
      { search :=
          (links.filter fun a => decide (bucketOf host a = some Bucket.search)).map linkEntry
        navigation :=
          (links.filter fun a => decide (bucketOf host a = some Bucket.navigation)).map linkEntry
        external :=
          (links.filter fun a => decide (bucketOf host a = some Bucket.external)).map linkEntry
        other :=
          (links.filter fun a => decide (bucketOf host a = some Bucket.other)).map linkEntry } := by
  have h := foldl_classify host links emptyUrlStructure
  simpa [getStructuredUrlsEval, emptyUrlStructure] using h
